import Mathlib

/-!
# Verification of the liff-bot chat utility layer

Shallow embedding of the client-side chat utilities of the repository:
* the retry/backoff executor and error classification
  (`src/app/utils/productSearch.ts`, error-handling section),
* the offline message queue (`processQueuedMessages` and friends),
* message-input validation (`validateMessageInput`,
  `getValidationErrorMessage`),
* the local conversation store with its two-tier storage backend
  (`saveChatStorage`, `getChatStorageWithFallback`,
  `addMessageToConversation`, `getCurrentConversation`,
  `createNewConversation`, `switchToConversation`, `deleteConversation`,
  `optimizeStorageForSpace`, `fallbackToSessionStorage`).

JavaScript `Date` values are modelled as milliseconds-since-epoch (`Nat`);
strings are Lean `String`s; the browser storage backends are modelled by an
explicit `World` state record whose write/read outcomes are parameters.
-/

namespace LiffBot

/-! ## Small string helpers (JS semantics) -/

/-- JS `String.prototype.includes`: `pat` occurs as a contiguous substring. -/
def strIncludes (s pat : String) : Bool :=
  s.toList.tails.any fun t => pat.toList.isPrefixOf t

/-- UTF-16 code-unit weight of a character (JS string indexing unit):
astral code points (≥ `0x10000`) occupy two code units. -/
def utf16Weight (c : Char) : Nat :=
  if c.toNat < 0x10000 then 1 else 2

/-- UTF-16 length of a list of characters. -/
def utf16Len : List Char → Nat
  | [] => 0
  | c :: cs => utf16Weight c + utf16Len cs

/-- JS `.length` of a string (UTF-16 code units). -/
def utf16Length (s : String) : Nat := utf16Len s.toList

/-- The JS `\s` / `trim` whitespace class: space separators, tab, line
terminators, NBSP, BOM (ECMA-262 WhiteSpace ∪ LineTerminator). -/
def isJsWhitespace (c : Char) : Bool :=
  c.toNat == 0x9 || c.toNat == 0xA || c.toNat == 0xB || c.toNat == 0xC ||
  c.toNat == 0xD || c.toNat == 0x20 || c.toNat == 0xA0 || c.toNat == 0x1680 ||
  (0x2000 ≤ c.toNat && c.toNat ≤ 0x200A) || c.toNat == 0x2028 ||
  c.toNat == 0x2029 || c.toNat == 0x202F || c.toNat == 0x205F ||
  c.toNat == 0x3000 || c.toNat == 0xFEFF

/-- JS `String.prototype.trim` on a character list: strip leading and
trailing whitespace. -/
def jsTrimList (l : List Char) : List Char :=
  ((l.dropWhile isJsWhitespace).reverse.dropWhile isJsWhitespace).reverse

/-- JS `String.prototype.trim`. -/
def jsTrim (s : String) : String := ⟨jsTrimList s.toList⟩

/-- The regex test `/^\s*$/.test(s)`: every character is whitespace. -/
def isWhitespaceOnlyRegex (s : String) : Bool :=
  s.toList.all isJsWhitespace

/-- One character of the "meaningful content" class of
`/[a-zA-Z0-9À-ſ฀-๿一-鿿]/`. -/
def isMeaningfulChar (c : Char) : Bool :=
  (0x61 ≤ c.toNat && c.toNat ≤ 0x7A) || (0x41 ≤ c.toNat && c.toNat ≤ 0x5A) ||
  (0x30 ≤ c.toNat && c.toNat ≤ 0x39) || (0xC0 ≤ c.toNat && c.toNat ≤ 0x17F) ||
  (0xE00 ≤ c.toNat && c.toNat ≤ 0xE7F) ||
  (0x4E00 ≤ c.toNat && c.toNat ≤ 0x9FFF)

/-- The regex test for meaningful content on a whole string. -/
def hasMeaningfulChar (s : String) : Bool :=
  s.toList.any isMeaningfulChar

/-! ## Error model (`productSearch.ts` error classes)

The error-handling module defines `NetworkError`, `APIError` (with a
`statusCode`), `ValidationError`, `StorageError`; any other thrown value is
a plain `Error` with a `name` and a `message`. -/

/-- A JS error value as the error-handling utilities observe it. -/
inductive JsError where
  | networkError (message : String)
  | apiError (message : String) (statusCode : Nat)
  | validationError (message : String)
  | storageError (message : String)
  | jsError (name message : String)
deriving DecidableEq, Repr

/-- The `name` property of the error object. -/
def JsError.errName : JsError → String
  | .networkError _ => "NetworkError"
  | .apiError _ _ => "APIError"
  | .validationError _ => "ValidationError"
  | .storageError _ => "StorageError"
  | .jsError n _ => n

/-- The `message` property of the error object. -/
def JsError.errMessage : JsError → String
  | .networkError m => m
  | .apiError m _ => m
  | .validationError m => m
  | .storageError m => m
  | .jsError _ m => m

/-- `isRetryableError` (`productSearch.ts` lines 253-276): network errors
are retryable; API errors are retryable exactly for the transient status
codes; otherwise timeout-looking and connection-looking errors are
retryable. -/
def isRetryableError (e : JsError) : Bool :=
  match e with
  | .networkError _ => true
  | .apiError _ statusCode => [408, 429, 500, 502, 503, 504].contains statusCode
  | _ =>
    if e.errName == "TimeoutError" || strIncludes e.errMessage "timeout" then true
    else if strIncludes e.errMessage "fetch" || strIncludes e.errMessage "network" then true
    else false

/-! ## Retry/backoff executor (`retryWithBackoff`, lines 204-248)

The operation is modelled as a function from the number of invocations made
so far to its outcome; the connectivity monitor (`isNetworkOnline`) is a
function from the loop iteration (`retryCount` at check time) to a Bool.
Delays only affect timing and are dropped.  The executor returns the final
outcome together with the number of times the operation was invoked. -/

/-- The `while (retryCount <= config.maxRetries)` loop of
`retryWithBackoff`.  `calls` counts invocations of the operation;
`lastError` is the JS `lastError` variable (observable only in the
unreachable case where the loop body never ran). -/
def retryLoop {α : Type} (online : Nat → Bool) (op : Nat → Except JsError α)
    (maxRetries : Nat) (retryCount calls : Nat) (lastError : Option JsError) :
    Except JsError α × Nat :=
  if _h : retryCount ≤ maxRetries then
    -- connectivity is checked before attempting the operation
    let attempt : Except JsError α :=
      if online retryCount then op calls
      else .error (.networkError "No network connectivity")
    let calls' : Nat := if online retryCount then calls + 1 else calls
    match attempt with
    | .ok v => (.ok v, calls')
    | .error e =>
      if _hgt : retryCount + 1 > maxRetries then (.error e, calls')
      else if isRetryableError e then
        retryLoop online op maxRetries (retryCount + 1) calls' (some e)
      else (.error e, calls')
  else
    (match lastError with
     | some e => .error e
     -- `throw lastError!` with `lastError` undefined: unreachable since the
     -- loop always runs at least once (retryCount starts at 0)
     | none => .error (.jsError "TypeError" "lastError is undefined"), calls)
termination_by maxRetries + 1 - retryCount
decreasing_by omega

/-- `retryWithBackoff` with the merged config's `maxRetries`. -/
def retryWithBackoff {α : Type} (online : Nat → Bool)
    (op : Nat → Except JsError α) (maxRetries : Nat) :
    Except JsError α × Nat :=
  retryLoop online op maxRetries 0 0 none

/-! ## Offline message queue (`queueMessageForRetry` / `processQueuedMessages`) -/

/-- `ERROR_HANDLING_CONFIG` (`src/app/config/chat.ts`). -/
structure ErrorHandlingConfig where
  maxRetries : Nat
  retryDelay : Nat
  exponentialBackoff : Bool
deriving DecidableEq, Repr

/-- The configured error-handling values. -/
def ERROR_HANDLING_CONFIG : ErrorHandlingConfig :=
  { maxRetries := 3, retryDelay := 1000, exponentialBackoff := true }

/-- A queued offline message (`QueuedMessage` in `productSearch.ts`). -/
structure QueuedMessage where
  id : String
  content : String
  timestamp : Nat
  retryCount : Nat
deriving DecidableEq, Repr

/-- One pass of `processQueuedMessages` over the snapshotted messages:
returns the settled outcomes (`true` = fulfilled) in message order together
with the re-queued messages (failed sends whose `retryCount` is below the
configured maximum, with the count incremented), in processing order. -/
def processQueuedMessagesGo (send : String → Bool) :
    List QueuedMessage → List Bool × List QueuedMessage
  | [] => ([], [])
  | m :: rest =>
    let tail := processQueuedMessagesGo send rest
    if send m.content then (true :: tail.1, tail.2)
    else if m.retryCount < ERROR_HANDLING_CONFIG.maxRetries then
      (false :: tail.1, { m with retryCount := m.retryCount + 1 } :: tail.2)
    else (false :: tail.1, tail.2)

/-- `processQueuedMessages` (lines 591-613): snapshots and clears the
queue, then attempts `sendMessage` for each snapshotted message
independently (`Promise.allSettled`); a failed message is re-enqueued with
`retryCount + 1` when under `ERROR_HANDLING_CONFIG.maxRetries`, else
dropped.  Returns (settled outcomes, queue contents afterwards). -/
def processQueuedMessages (send : String → Bool)
    (messageQueue : List QueuedMessage) : List Bool × List QueuedMessage :=
  processQueuedMessagesGo send messageQueue

/-! ## Input validation (`part_005` lines 49-129, `VALIDATION_CONFIG`) -/

/-- `VALIDATION_CONFIG` (`src/app/config/chat.ts` lines 52-57). -/
structure ValidationConfig where
  MIN_MESSAGE_LENGTH : Nat
  MAX_MESSAGE_LENGTH : Nat
  ALLOW_ONLY_WHITESPACE : Bool
  REQUIRE_MEANINGFUL_CONTENT : Bool
deriving DecidableEq, Repr

/-- The configured validation values. -/
def VALIDATION_CONFIG : ValidationConfig :=
  { MIN_MESSAGE_LENGTH := 1, MAX_MESSAGE_LENGTH := 4000,
    ALLOW_ONLY_WHITESPACE := false, REQUIRE_MEANINGFUL_CONTENT := true }

/-- `validateMessageInput` (`part_005` lines 49-89).  `!input` is JS
falsiness of a string, i.e. the empty string (null/undefined are outside
the `String` model). -/
def validateMessageInput (input : String) : Bool :=
  if input = "" then false
  else
    let trimmedInput := jsTrim input
    if utf16Length trimmedInput = 0 then false
    else if utf16Length trimmedInput < VALIDATION_CONFIG.MIN_MESSAGE_LENGTH then false
    else if utf16Length input > VALIDATION_CONFIG.MAX_MESSAGE_LENGTH then false
    else if !VALIDATION_CONFIG.ALLOW_ONLY_WHITESPACE && isWhitespaceOnlyRegex input then false
    else if VALIDATION_CONFIG.REQUIRE_MEANINGFUL_CONTENT
        && !hasMeaningfulChar trimmedInput then false
    else true

/-- `getValidationErrorMessage` (`part_005` lines 95-129). -/
def getValidationErrorMessage (input : String) : Option String :=
  if input = "" then some "Please enter a message"
  else if utf16Length input > VALIDATION_CONFIG.MAX_MESSAGE_LENGTH then
    some ("Message cannot exceed " ++ toString VALIDATION_CONFIG.MAX_MESSAGE_LENGTH
      ++ " characters")
  else if !VALIDATION_CONFIG.ALLOW_ONLY_WHITESPACE && isWhitespaceOnlyRegex input then
    some "Message cannot contain only whitespace"
  else
    let trimmedInput := jsTrim input
    if utf16Length trimmedInput = 0 then some "Message cannot be empty"
    else if utf16Length trimmedInput < VALIDATION_CONFIG.MIN_MESSAGE_LENGTH then
      some ("Message must be at least " ++ toString VALIDATION_CONFIG.MIN_MESSAGE_LENGTH
        ++ " character"
        ++ (if VALIDATION_CONFIG.MIN_MESSAGE_LENGTH > 1 then "s" else "") ++ " long")
    else if VALIDATION_CONFIG.REQUIRE_MEANINGFUL_CONTENT
        && !hasMeaningfulChar trimmedInput then
      some "Message must contain meaningful content"
    else none

/-! ## Conversation data model (`src/app/types/chat.ts`)

`Date` fields are milliseconds since the epoch.  `role`, `theme` and
`fontSize` are runtime strings (TS union types erase at runtime). -/

/-- `ChatMessage.metadata`. -/
structure ChatMessageMetadata where
  tokens : Option Nat
  model : Option String
  error : Option String
deriving DecidableEq, Repr

/-- `ChatMessage`. -/
structure ChatMessage where
  id : String
  role : String
  content : String
  timestamp : Nat
  metadata : Option ChatMessageMetadata
deriving DecidableEq, Repr

/-- `Conversation`. -/
structure Conversation where
  id : String
  messages : List ChatMessage
  createdAt : Nat
  updatedAt : Nat
  title : Option String
deriving DecidableEq, Repr

/-- The `settings` record of `ChatStorage`. -/
structure ChatSettings where
  theme : String
  fontSize : String
deriving DecidableEq, Repr

/-- `ChatStorage`: the persisted conversation store. -/
structure ChatStorage where
  conversations : List Conversation
  currentConversationId : Option String
  settings : ChatSettings
deriving DecidableEq, Repr

/-- `getDefaultChatStorage` (`part_005` lines 211-220). -/
def getDefaultChatStorage : ChatStorage :=
  { conversations := []
    currentConversationId := none
    settings := { theme := "light", fontSize := "medium" } }

/-- `createConversation` (`part_005` lines 36-43); the generated id and the
current time are passed explicitly. -/
def createConversation (newId : String) (now : Nat) : Conversation :=
  { id := newId, messages := [], createdAt := now, updatedAt := now, title := none }

/-! ## JSON serialization

`JSON.stringify`/`JSON.parse` round-trips of plain data are platform
behaviour; the backends therefore store the serialized JSON tree.  `Date`
values serialize through `toISOString` (modelled by the `World.isoOf`
parameter) and are rehydrated on load with `new Date(string)` (modelled by
`World.parseDate`). -/

/-- A JSON value. -/
inductive Json where
  | null
  | bool (b : Bool)
  | num (n : Nat)
  | str (s : String)
  | arr (items : List Json)
  | obj (fields : List (String × Json))

/-- Object-field lookup. -/
def Json.getField (fields : List (String × Json)) (nm : String) : Option Json :=
  (fields.find? fun f => f.1 == nm).map (·.2)

/-- `JSON.stringify` of a `metadata` record: `undefined` members are
omitted. -/
def encodeMetadata (md : ChatMessageMetadata) : Json :=
  .obj ((match md.tokens with | some t => [("tokens", Json.num t)] | none => [])
    ++ (match md.model with | some m => [("model", Json.str m)] | none => [])
    ++ (match md.error with | some e => [("error", Json.str e)] | none => []))

/-- `JSON.stringify` of a `ChatMessage`; the `timestamp` `Date` becomes its
ISO string. -/
def encodeMessage (iso : Nat → String) (m : ChatMessage) : Json :=
  .obj ([("id", Json.str m.id), ("role", Json.str m.role),
         ("content", Json.str m.content), ("timestamp", Json.str (iso m.timestamp))]
    ++ (match m.metadata with
        | some md => [("metadata", encodeMetadata md)]
        | none => []))

/-- `JSON.stringify` of a `Conversation`. -/
def encodeConversation (iso : Nat → String) (c : Conversation) : Json :=
  .obj ([("id", Json.str c.id),
         ("messages", Json.arr (c.messages.map (encodeMessage iso))),
         ("createdAt", Json.str (iso c.createdAt)),
         ("updatedAt", Json.str (iso c.updatedAt))]
    ++ (match c.title with | some t => [("title", Json.str t)] | none => []))

/-- `JSON.stringify` of a `ChatStorage`. -/
def encodeStorage (iso : Nat → String) (s : ChatStorage) : Json :=
  .obj [("conversations", Json.arr (s.conversations.map (encodeConversation iso))),
        ("currentConversationId",
          match s.currentConversationId with | some c => Json.str c | none => Json.null),
        ("settings", Json.obj [("theme", Json.str s.settings.theme),
                               ("fontSize", Json.str s.settings.fontSize)])]

/-- Rehydration of a `metadata` record (fields kept as parsed). -/
def decodeMetadata (fields : List (String × Json)) : ChatMessageMetadata :=
  { tokens := match Json.getField fields "tokens" with
              | some (.num t) => some t | _ => none
    model := match Json.getField fields "model" with
             | some (.str m) => some m | _ => none
    error := match Json.getField fields "error" with
             | some (.str e) => some e | _ => none }

/-- Rehydration of a message as done on load:
`{ ...msg, timestamp: new Date(msg.timestamp) }`; `none` models the shape
errors on which the JS mapping would throw. -/
def decodeMessage (parseDate : String → Nat) : Json → Option ChatMessage
  | .obj fields =>
    match Json.getField fields "id", Json.getField fields "role",
        Json.getField fields "content", Json.getField fields "timestamp" with
    | some (.str i), some (.str r), some (.str c), some (.str ts) =>
      some { id := i, role := r, content := c, timestamp := parseDate ts,
             metadata := match Json.getField fields "metadata" with
                         | some (.obj mf) => some (decodeMetadata mf)
                         | _ => none }
    | _, _, _, _ => none
  | _ => none

/-- Rehydration of a conversation as done on load: dates re-parsed,
messages mapped through `decodeMessage`. -/
def decodeConversation (parseDate : String → Nat) : Json → Option Conversation
  | .obj fields =>
    match Json.getField fields "id", Json.getField fields "messages",
        Json.getField fields "createdAt", Json.getField fields "updatedAt" with
    | some (.str i), some (.arr ms), some (.str ca), some (.str ua) =>
      match ms.mapM (decodeMessage parseDate) with
      | some msgs =>
        some { id := i, messages := msgs, createdAt := parseDate ca,
               updatedAt := parseDate ua,
               title := match Json.getField fields "title" with
                        | some (.str t) => some t | _ => none }
      | none => none
    | _, _, _, _ => none
  | _ => none

/-- Rehydration of a whole `ChatStorage` as done by
`getChatStorageWithFallback`. -/
def decodeStorage (parseDate : String → Nat) : Json → Option ChatStorage
  | .obj fields =>
    match Json.getField fields "conversations" with
    | some (.arr convs) =>
      match convs.mapM (decodeConversation parseDate) with
      | some cs =>
        let current : Option String :=
          match Json.getField fields "currentConversationId" with
          | some (.str c) => some c
          | _ => none
        match Json.getField fields "settings" with
        | some (.obj sf) =>
          match Json.getField sf "theme", Json.getField sf "fontSize" with
          | some (.str th), some (.str fs) =>
            some { conversations := cs, currentConversationId := current,
                   settings := { theme := th, fontSize := fs } }
          | _, _ => none
        | _ => none
      | none => none
    | _ => none
  | _ => none

/-! ## The storage world

`World` models the browser environment: the `ai-chat-history` entry of
both backends, the outcome of attempted writes/reads, the
`getAvailableStorageSpace` probe, the `Blob` size measure, and the `Date`
ISO codec. -/

/-- Classification of a failed `Storage.setItem` call, as inspected by the
`catch` handler of `saveChatStorage`. -/
inductive StorageFailure where
  | quotaExceeded
  | security
  | generic
deriving DecidableEq, Repr

/-- The browser environment state and behaviour. -/
structure World where
  localData : Option Json
  sessionData : Option Json
  localWriteResult : Json → Option StorageFailure
  sessionWriteFails : Json → Bool
  localReadFails : Bool
  sessionReadFails : Bool
  availableSpace : Option Nat
  blobSize : Json → Nat
  isoOf : Nat → String
  parseDate : String → Nat

/-- Result record of `saveChatStorage`. -/
structure SaveResult where
  success : Bool
  error : Option String
deriving DecidableEq, Repr

/-- Result record of store operations returning `success`/`warning`. -/
structure OpResult where
  success : Bool
  warning : Option String
deriving DecidableEq, Repr

/-- `localStorage.setItem(CHAT_HISTORY, j)`: on success the entry is
replaced, on failure the backend is untouched and the failure kind is
reported. -/
def setLocal (w : World) (j : Json) : Option StorageFailure × World :=
  match w.localWriteResult j with
  | none => (none, { w with localData := some j })
  | some e => (some e, w)

/-- `fallbackToSessionStorage` (`part_005` lines 565-583). -/
def fallbackToSessionStorage (w : World) (storage : ChatStorage) :
    SaveResult × World :=
  let j := encodeStorage w.isoOf storage
  if w.sessionWriteFails j then
    ({ success := false, error := some "Unable to save conversation history" }, w)
  else
    ({ success := true,
       error := some "Using session storage (data will not persist after browser close)" },
     { w with sessionData := some j })

/-! ## Pruning (`optimizeStorageForSpace`, `part_005` lines 534-559) -/

/-- Insertion step of the stable descending sort on `updatedAt` used for
`sort((a, b) => b.updatedAt - a.updatedAt)`. -/
def insertByUpdatedDesc (c : Conversation) : List Conversation → List Conversation
  | [] => [c]
  | d :: ds =>
    if d.updatedAt < c.updatedAt then c :: d :: ds
    else d :: insertByUpdatedDesc c ds

/-- Stable sort of conversations, most recently updated first. -/
def sortByUpdatedDesc : List Conversation → List Conversation
  | [] => []
  | c :: cs => insertByUpdatedDesc c (sortByUpdatedDesc cs)

/-- `optimizeStorageForSpace`: keep the 5 most recently updated
conversations; if the (truthy) current conversation got cut, drop the
oldest kept one and re-append the current conversation. -/
def optimizeStorageForSpace (storage : ChatStorage) : ChatStorage :=
  let maxConversations := 5
  let sortedConversations := sortByUpdatedDesc storage.conversations
  let kept := sortedConversations.take maxConversations
  let optimizedConversations :=
    match storage.currentConversationId with
    | some cid =>
      if cid == "" then kept  -- `if (currentConvId && ...)`: "" is falsy
      else if (kept.find? fun c => c.id == cid).isSome then kept
      else
        match storage.conversations.find? fun c => c.id == cid with
        | some currentConv => kept.dropLast ++ [currentConv]
        | none => kept
    | none => kept
  { storage with conversations := optimizedConversations }

/-! ## `saveChatStorage` (`part_005` lines 154-206) -/

/-- The plain `localStorage.setItem` attempt of `saveChatStorage` together
with its `catch` handler (quota → prune and retry, then session fallback;
security → hard failure; anything else → session fallback). -/
def saveChatStorageMain (w : World) (storage : ChatStorage)
    (serializedData : Json) : SaveResult × World :=
  match setLocal w serializedData with
  | (none, w') => ({ success := true, error := none }, w')
  | (some .quotaExceeded, w') =>
    let optimizedStorage := optimizeStorageForSpace storage
    match setLocal w' (encodeStorage w.isoOf optimizedStorage) with
    | (none, w'') => ({ success := true, error := none }, w'')
    | (some _, w'') => fallbackToSessionStorage w'' optimizedStorage
  | (some .security, w') =>
    ({ success := false, error := some "Storage access denied (private browsing mode)" }, w')
  | (some .generic, w') => fallbackToSessionStorage w' storage

/-- `saveChatStorage`: serialize; if the measured size exceeds the probed
available space, prune and write the pruned store (falling back to session
storage on failure); otherwise write and run the `catch` handler on
failure. -/
def saveChatStorage (w : World) (storage : ChatStorage) : SaveResult × World :=
  let serializedData := encodeStorage w.isoOf storage
  let estimatedSize := w.blobSize serializedData
  match w.availableSpace with
  | some availableSpace =>
    if estimatedSize > availableSpace then
      let optimizedStorage := optimizeStorageForSpace storage
      let optimizedData := encodeStorage w.isoOf optimizedStorage
      match setLocal w optimizedData with
      | (none, w') => ({ success := true, error := none }, w')
      | (some _, w') => fallbackToSessionStorage w' optimizedStorage
    else saveChatStorageMain w storage serializedData
  | none => saveChatStorageMain w storage serializedData

/-! ## Loading (`getChatStorageWithFallback`, `part_005` lines 589-657) -/

/-- Result record of `getChatStorageWithFallback`. -/
structure LoadResult where
  storage : ChatStorage
  source : String
  warning : Option String

/-- `getChatStorageWithFallback`: try `localStorage`, then
`sessionStorage`, then the default store.  A read that throws, an absent
entry, or data on which the rehydration mapping throws all fall through to
the next tier. -/
def getChatStorageWithFallback (w : World) : LoadResult :=
  let tryLocal : Option ChatStorage :=
    if w.localReadFails then none
    else match w.localData with
      | some stored => decodeStorage w.parseDate stored
      | none => none
  match tryLocal with
  | some storage => { storage := storage, source := "localStorage", warning := none }
  | none =>
    let trySession : Option ChatStorage :=
      if w.sessionReadFails then none
      else match w.sessionData with
        | some stored => decodeStorage w.parseDate stored
        | none => none
    match trySession with
    | some storage =>
      { storage := storage, source := "sessionStorage",
        warning := some "Conversation history loaded from session storage (temporary)" }
    | none =>
      { storage := getDefaultChatStorage, source := "default",
        warning := some "Unable to load conversation history" }

/-- `getChatStorage` (`part_005` lines 145-148). -/
def getChatStorage (w : World) : ChatStorage :=
  (getChatStorageWithFallback w).storage

/-! ## Store operations (`part_005`) -/

/-- Replace the element at a position (JS in-place update of
`conversations[i]`). -/
def listModify {α : Type} (f : α → α) : Nat → List α → List α
  | _, [] => []
  | 0, x :: xs => f x :: xs
  | n + 1, x :: xs => x :: listModify f n xs

/-- `addMessageToConversation` (`part_005` lines 226-247): load, find the
conversation, push the message and bump `updatedAt`, then persist; report
"Conversation not found" without saving when the id is unknown. -/
def addMessageToConversation (w : World) (conversationId : String)
    (message : ChatMessage) (now : Nat) : OpResult × World :=
  let storage := getChatStorage w
  match storage.conversations.findIdx? fun conv => conv.id == conversationId with
  | some conversationIndex =>
    let storage' := { storage with
      conversations := listModify
        (fun c => { c with messages := c.messages ++ [message], updatedAt := now })
        conversationIndex storage.conversations }
    let (saveResult, w') := saveChatStorage w storage'
    ({ success := saveResult.success, warning := saveResult.error }, w')
  | none => ({ success := false, warning := some "Conversation not found" }, w)

/-- The lookup `storage.conversations.find(conv => conv.id ===
storage.currentConversationId)` guarded by the truthiness test
`if (storage.currentConversationId)`. -/
def findCurrentConversation (storage : ChatStorage) : Option Conversation :=
  match storage.currentConversationId with
  | some cid =>
    if cid == "" then none
    else storage.conversations.find? fun conv => conv.id == cid
  | none => none

/-- State change of `getCurrentConversation` (`part_005` lines 253-283):
return the resolved current conversation unchanged, or create a fresh one,
append it and make it current. -/
def getCurrentConversationCore (storage : ChatStorage) (newId : String)
    (now : Nat) : Conversation × ChatStorage :=
  match findCurrentConversation storage with
  | some existing => (existing, storage)
  | none =>
    let newConversation := createConversation newId now
    (newConversation,
     { storage with
        conversations := storage.conversations ++ [newConversation]
        currentConversationId := some newConversation.id })

/-- `getCurrentConversation` at world level: the repaired store is
persisted only when a conversation was created. -/
def getCurrentConversation (w : World) (newId : String) (now : Nat) :
    Conversation × Option String × World :=
  let result := getChatStorageWithFallback w
  let storage := result.storage
  match findCurrentConversation storage with
  | some existing => (existing, result.warning, w)
  | none =>
    let (newConversation, storage') := getCurrentConversationCore storage newId now
    let (saveResult, w') := saveChatStorage w storage'
    (newConversation,
     (match saveResult.error with | some e => some e | none => result.warning), w')

/-- State change of `createNewConversation` (`part_005` lines 365-386). -/
def createNewConversationCore (storage : ChatStorage) (newId : String)
    (now : Nat) : Conversation × ChatStorage :=
  let newConversation := createConversation newId now
  (newConversation,
   { storage with
      conversations := storage.conversations ++ [newConversation]
      currentConversationId := some newConversation.id })

/-- State change of `switchToConversation` (`part_005` lines 392-418):
`none` conversation means "Conversation not found" (store untouched). -/
def switchToConversationCore (storage : ChatStorage) (conversationId : String) :
    Option Conversation × ChatStorage :=
  match storage.conversations.find? fun conv => conv.id == conversationId with
  | none => (none, storage)
  | some conversation =>
    (some conversation, { storage with currentConversationId := some conversationId })

/-- State change of `deleteConversation` (`part_005` lines 424-468):
splice out the conversation at the found index; if it was current, sort the
remainder by recency (in place) and make its head current, or create a
fresh conversation when none remain.  `none` = "Conversation not found". -/
def deleteConversationCore (storage : ChatStorage)
    (conversationId freshId : String) (now : Nat) :
    Option (ChatStorage × Option Conversation) :=
  match storage.conversations.findIdx? fun conv => conv.id == conversationId with
  | none => none
  | some conversationIndex =>
    let remaining := storage.conversations.eraseIdx conversationIndex
    if storage.currentConversationId == some conversationId then
      match sortByUpdatedDesc remaining with
      | [] =>
        let newConv := createConversation freshId now
        some ({ storage with
                  conversations := [newConv]
                  currentConversationId := some newConv.id }, some newConv)
      | first :: rest =>
        some ({ storage with
                  conversations := first :: rest
                  currentConversationId := some first.id }, some first)
    else
      some ({ storage with conversations := remaining }, none)

/-- `deleteConversation` at world level. -/
def deleteConversation (w : World) (conversationId freshId : String)
    (now : Nat) : OpResult × World :=
  let storage := getChatStorage w
  match deleteConversationCore storage conversationId freshId now with
  | none => ({ success := false, warning := some "Conversation not found" }, w)
  | some (storage', _) =>
    let (saveResult, w') := saveChatStorage w storage'
    ({ success := saveResult.success, warning := saveResult.error }, w')

/-- The store invariant: a non-null `currentConversationId` resolves to a
conversation in the list. -/
def storeInvariant (s : ChatStorage) : Prop :=
  ∀ cid, s.currentConversationId = some cid →
    cid ∈ s.conversations.map Conversation.id

/-! ## Concrete fixtures (used to instantiate theorems with hypotheses) -/

/-- A concrete conforming `toISOString` model (injective date encoding). -/
def unaryIso (t : Nat) : String := String.mk (List.replicate t 'x')

/-- The matching concrete `new Date(string).getTime()` model. -/
def unaryParse (s : String) : Nat := s.toList.length

/-- A benign browser environment: both backends empty and accepting. -/
def baseWorld : World :=
  { localData := none
    sessionData := none
    localWriteResult := fun _ => none
    sessionWriteFails := fun _ => false
    localReadFails := false
    sessionReadFails := false
    availableSpace := none
    blobSize := fun _ => 0
    isoOf := unaryIso
    parseDate := unaryParse }

/-- An environment whose primary backend rejects every write for capacity
reasons while the secondary backend accepts. -/
def quotaWorld : World :=
  { baseWorld with localWriteResult := fun _ => some .quotaExceeded }

/-- A two-conversation store fixture. -/
def twoConvStore : ChatStorage :=
  { conversations :=
      [{ id := "a", messages := [], createdAt := 0, updatedAt := 10, title := none },
       { id := "b", messages := [], createdAt := 0, updatedAt := 30, title := none }]
    currentConversationId := some "a"
    settings := { theme := "light", fontSize := "medium" } }

/-- A one-message, one-conversation store fixture. -/
def oneConvStore : ChatStorage :=
  { conversations :=
      [{ id := "conv1"
         messages := [{ id := "m1", role := "user", content := "Hello",
                        timestamp := 5, metadata := none }]
         createdAt := 3, updatedAt := 5, title := none }]
    currentConversationId := some "conv1"
    settings := { theme := "light", fontSize := "medium" } }

/-! # Theorems -/

/-! ## Retry executor lemmas -/

theorem retryLoop_ok {α : Type} {online : Nat → Bool} {op : Nat → Except JsError α}
    {maxRetries retryCount calls : Nat} {le : Option JsError} {v : α}
    (hle : retryCount ≤ maxRetries) (hon : online retryCount = true)
    (hop : op calls = .ok v) :
    retryLoop online op maxRetries retryCount calls le = (.ok v, calls + 1) := by
  conv_lhs => rw [retryLoop.eq_def]
  simp [hle, hon, hop]

theorem retryLoop_error_exhaust {α : Type} {online : Nat → Bool}
    {op : Nat → Except JsError α} {maxRetries retryCount calls : Nat}
    {le : Option JsError} {e : JsError}
    (hle : retryCount ≤ maxRetries) (hon : online retryCount = true)
    (hop : op calls = .error e) (hgt : maxRetries < retryCount + 1) :
    retryLoop online op maxRetries retryCount calls le = (.error e, calls + 1) := by
  conv_lhs => rw [retryLoop.eq_def]
  simp [hle, hon, hop, hgt]

theorem retryLoop_error_terminal {α : Type} {online : Nat → Bool}
    {op : Nat → Except JsError α} {maxRetries retryCount calls : Nat}
    {le : Option JsError} {e : JsError}
    (hle : retryCount ≤ maxRetries) (hon : online retryCount = true)
    (hop : op calls = .error e) (hr : isRetryableError e = false) :
    retryLoop online op maxRetries retryCount calls le = (.error e, calls + 1) := by
  conv_lhs => rw [retryLoop.eq_def]
  by_cases hgt : maxRetries < retryCount + 1 <;> simp [hle, hon, hop, hgt, hr]

theorem retryLoop_error_next {α : Type} {online : Nat → Bool}
    {op : Nat → Except JsError α} {maxRetries retryCount calls : Nat}
    {le : Option JsError} {e : JsError}
    (hle2 : retryCount + 1 ≤ maxRetries) (hon : online retryCount = true)
    (hop : op calls = .error e) (hr : isRetryableError e = true) :
    retryLoop online op maxRetries retryCount calls le
      = retryLoop online op maxRetries (retryCount + 1) (calls + 1) (some e) := by
  conv_lhs => rw [retryLoop.eq_def]
  have hle : retryCount ≤ maxRetries := by omega
  have hgt : ¬ maxRetries < retryCount + 1 := by omega
  simp [hle, hon, hop, hgt, hr]

theorem retryLoop_offline_all {α : Type} {online : Nat → Bool}
    {op : Nat → Except JsError α} {maxRetries : Nat}
    (hoff : ∀ n, online n = false) :
    ∀ (d retryCount calls : Nat) (le : Option JsError),
      maxRetries + 1 - retryCount ≤ d → retryCount ≤ maxRetries →
      retryLoop online op maxRetries retryCount calls le
        = (.error (.networkError "No network connectivity"), calls) := by
  intro d
  induction d with
  | zero => intro rc calls le hd hle; omega
  | succ d ih =>
    intro rc calls le hd hle
    conv_lhs => rw [retryLoop.eq_def]
    by_cases hgt : maxRetries < rc + 1
    · simp [hle, hoff rc, hgt]
    · have : retryLoop online op maxRetries (rc + 1) calls (some (.networkError "No network connectivity"))
          = (.error (.networkError "No network connectivity"), calls) := by
        exact ih (rc + 1) calls _ (by omega) (by omega)
      simp [hle, hoff rc, hgt, isRetryableError, this]

/-- C1: for the retry executor `retryWithBackoff`, an operation failing
twice with retryable errors and then succeeding is, with `maxRetries ≥ 2`,
invoked exactly 3 times and its success value returned; an operation that
always fails with a terminal (non-retryable) error is invoked exactly once
and that error is propagated. -/
theorem retryWithBackoff_spec :
    (∀ (α : Type) (v : α) (e₀ e₁ : JsError) (maxRetries : Nat)
        (op : Nat → Except JsError α),
      2 ≤ maxRetries → isRetryableError e₀ = true → isRetryableError e₁ = true →
      op 0 = .error e₀ → op 1 = .error e₁ → op 2 = .ok v →
      retryWithBackoff (fun _ => true) op maxRetries = (.ok v, 3))
    ∧ (∀ (α : Type) (e : JsError) (maxRetries : Nat) (op : Nat → Except JsError α),
      isRetryableError e = false → (∀ n, op n = .error e) →
      retryWithBackoff (fun _ => true) op maxRetries = (.error e, 1)) := by
  constructor
  · intro α v e₀ e₁ maxRetries op hmax hr0 hr1 h0 h1 h2
    rw [retryWithBackoff]
    rw [retryLoop_error_next (by omega) rfl h0 hr0]
    rw [retryLoop_error_next (by omega) rfl h1 hr1]
    rw [retryLoop_ok (by omega) rfl h2]
  · intro α e maxRetries op hr hop
    rw [retryWithBackoff]
    by_cases hgt : maxRetries < 1
    · rw [retryLoop_error_exhaust (by omega) rfl (hop 0) (by omega)]
    · rw [retryLoop_error_terminal (by omega) rfl (hop 0) hr]

theorem retryWithBackoff_spec_witness :
    retryWithBackoff (fun _ => true)
        (fun n => if n = 0 then .error (.apiError "boom" 500)
          else if n = 1 then .error (.jsError "TimeoutError" "slow")
          else .ok (42 : Nat)) 2
      = (.ok 42, 3)
    ∧ retryWithBackoff (fun _ => true)
        (fun _ => (.error (.validationError "bad") : Except JsError Nat)) 3
      = (.error (.validationError "bad"), 1) :=
  ⟨retryWithBackoff_spec.1 Nat 42 (.apiError "boom" 500) (.jsError "TimeoutError" "slow") 2 _
      (by omega) (by decide) (by decide) rfl rfl rfl,
   retryWithBackoff_spec.2 Nat (.validationError "bad") 3 _ (by decide) (fun _ => rfl)⟩

/-- C7: when the connectivity monitor reports offline, every attempt of
the retry executor fails immediately with a network-error classification
and the underlying operation is never invoked (zero calls). -/
theorem retryWithBackoff_offline {α : Type} (op : Nat → Except JsError α)
    (maxRetries : Nat) (online : Nat → Bool) (hoff : ∀ n, online n = false) :
    retryWithBackoff online op maxRetries
      = (.error (.networkError "No network connectivity"), 0) := by
  rw [retryWithBackoff]
  exact retryLoop_offline_all hoff (maxRetries + 1) 0 0 none (by omega) (by omega)

theorem retryWithBackoff_offline_witness :
    retryWithBackoff (fun _ => false) (fun _ => (.ok 3 : Except JsError Nat)) 2
      = (.error (.networkError "No network connectivity"), 0) :=
  retryWithBackoff_offline _ 2 (fun _ => false) (fun _ => rfl)

/-! ## Offline queue -/

theorem processQueuedMessagesGo_results (send : String → Bool) :
    ∀ q : List QueuedMessage,
      (processQueuedMessagesGo send q).1 = q.map fun m => send m.content := by
  intro q
  induction q with
  | nil => rfl
  | cons m rest ih =>
    rw [processQueuedMessagesGo]
    by_cases hs : send m.content = true
    · simp [hs, ih]
    · rw [Bool.not_eq_true] at hs
      by_cases hlt : m.retryCount < ERROR_HANDLING_CONFIG.maxRetries <;>
        simp [hs, hlt, ih]

theorem processQueuedMessagesGo_queue (send : String → Bool) :
    ∀ q : List QueuedMessage,
      (processQueuedMessagesGo send q).2
        = (q.filter fun m =>
            !send m.content && decide (m.retryCount < ERROR_HANDLING_CONFIG.maxRetries)).map
            fun m => { m with retryCount := m.retryCount + 1 } := by
  intro q
  induction q with
  | nil => rfl
  | cons m rest ih =>
    rw [processQueuedMessagesGo, List.filter_cons]
    by_cases hs : send m.content = true
    · simp [hs, ih]
    · rw [Bool.not_eq_true] at hs
      by_cases hlt : m.retryCount < ERROR_HANDLING_CONFIG.maxRetries <;>
        simp [hs, hlt, ih]

theorem map_send_replicate (send : String → Bool) :
    ∀ q : List QueuedMessage, (∀ m ∈ q, send m.content = true) →
      (q.map fun m => send m.content) = List.replicate q.length true := by
  intro q
  induction q with
  | nil => intro _; rfl
  | cons m rest ih =>
    intro h
    simp only [List.map_cons, List.length_cons, List.replicate_succ]
    rw [h m (List.mem_cons_self m rest), ih fun x hx => h x (List.mem_cons_of_mem m hx)]

/-- C2: draining the offline queue processes the snapshotted messages
independently — the settled outcomes are exactly the per-message send
outcomes, the resulting queue re-enqueues exactly the failed messages whose
`retryCount` was below the configured maximum (3) with the count
incremented (all others are dropped), and when every send succeeds the
queue ends empty with N fulfilled outcomes. -/
theorem processQueuedMessages_spec (send : String → Bool)
    (queue : List QueuedMessage) :
    (processQueuedMessages send queue).1 = (queue.map fun m => send m.content)
    ∧ (processQueuedMessages send queue).2
        = (queue.filter fun m =>
            !send m.content && decide (m.retryCount < ERROR_HANDLING_CONFIG.maxRetries)).map
            (fun m => { m with retryCount := m.retryCount + 1 })
    ∧ ((∀ m ∈ queue, send m.content = true) →
        (processQueuedMessages send queue).2 = []
        ∧ (processQueuedMessages send queue).1 = List.replicate queue.length true) := by
  refine ⟨processQueuedMessagesGo_results send queue,
          processQueuedMessagesGo_queue send queue, ?_⟩
  intro h
  constructor
  · rw [processQueuedMessages, processQueuedMessagesGo_queue]
    have : (queue.filter fun m =>
        !send m.content && decide (m.retryCount < ERROR_HANDLING_CONFIG.maxRetries)) = [] := by
      rw [List.filter_eq_nil_iff]
      intro m hm
      simp [h m hm]
    rw [this, List.map_nil]
  · rw [processQueuedMessages, processQueuedMessagesGo_results,
      map_send_replicate send queue h]

theorem processQueuedMessages_spec_witness :
    (processQueuedMessages (fun _ => true) [⟨"q1", "hello", 0, 0⟩]).2 = []
    ∧ (processQueuedMessages (fun _ => true) [⟨"q1", "hello", 0, 0⟩]).1
        = List.replicate 1 true :=
  ((processQueuedMessages_spec (fun _ => true) [⟨"q1", "hello", 0, 0⟩]).2.2
    (fun _ _ => rfl))

/-! ## Validation lemmas -/

theorem mem_dropWhile_of_not {α : Type} {p : α → Bool} {c : α} :
    ∀ l : List α, c ∈ l → p c = false → c ∈ l.dropWhile p := by
  intro l
  induction l with
  | nil => intro h; cases h
  | cons x xs ih =>
    intro hmem hpc
    rw [List.dropWhile_cons]
    by_cases hx : p x = true
    · have hcx : c ≠ x := fun h => by rw [h, hx] at hpc; cases hpc
      have : c ∈ xs := by
        rcases List.mem_cons.mp hmem with h | h
        · exact absurd h hcx
        · exact h
      simp [hx, ih this hpc]
    · simp only [Bool.not_eq_true] at hx
      simp [hx, hmem]

theorem mem_jsTrimList {c : Char} {l : List Char}
    (hmem : c ∈ l) (hws : isJsWhitespace c = false) : c ∈ jsTrimList l := by
  rw [jsTrimList]
  rw [List.mem_reverse]
  apply mem_dropWhile_of_not _ _ hws
  rw [List.mem_reverse]
  exact mem_dropWhile_of_not _ hmem hws

theorem jsTrimList_all_ws {l : List Char}
    (h : ∀ c ∈ l, isJsWhitespace c = true) : jsTrimList l = [] := by
  have : l.dropWhile isJsWhitespace = [] := by
    induction l with
    | nil => rfl
    | cons x xs ih =>
      rw [List.dropWhile_cons]
      simp [h x (List.mem_cons_self x xs),
        ih fun c hc => h c (List.mem_cons_of_mem x hc)]
  rw [jsTrimList, this]
  rfl

theorem utf16Len_pos {c : Char} : ∀ {l : List Char}, c ∈ l → 0 < utf16Len l := by
  intro l
  induction l with
  | nil => intro h; cases h
  | cons x xs ih =>
    intro _
    rw [utf16Len]
    have : 0 < utf16Weight x := by
      rw [utf16Weight]; split <;> omega
    omega

theorem meaningful_not_ws {c : Char} (h : isMeaningfulChar c = true) :
    isJsWhitespace c = false := by
  by_contra hws
  rw [Bool.not_eq_false, isJsWhitespace] at hws
  rw [isMeaningfulChar] at h
  simp only [Bool.or_eq_true, Bool.and_eq_true, decide_eq_true_eq, beq_iff_eq] at h hws
  omega

theorem validateMessageInput_iff (s : String) :
    validateMessageInput s = true ↔
      (¬ s = "" ∧ ¬ utf16Length (jsTrim s) = 0
        ∧ ¬ utf16Length (jsTrim s) < VALIDATION_CONFIG.MIN_MESSAGE_LENGTH
        ∧ ¬ utf16Length s > VALIDATION_CONFIG.MAX_MESSAGE_LENGTH
        ∧ ¬ isWhitespaceOnlyRegex s = true
        ∧ hasMeaningfulChar (jsTrim s) = true) := by
  have hA : VALIDATION_CONFIG.ALLOW_ONLY_WHITESPACE = false := rfl
  have hR : VALIDATION_CONFIG.REQUIRE_MEANINGFUL_CONTENT = true := rfl
  rw [validateMessageInput]
  simp only [hA, hR, Bool.not_false, Bool.true_and]
  split_ifs with h1 h2 h3 h4 h5 h6 <;>
    simp_all

/-- C5: `validateMessageInput` returns `false` on the empty string and on
every whitespace-only string; it returns `true` on every string that
contains at least one meaningful character (Latin, digit,
Unicode-accented, Thai, or CJK) and whose length is within the configured
bound of 4000. -/
theorem validateMessageInput_spec (s : String) :
    ((s = "" ∨ ∀ c ∈ s.toList, isJsWhitespace c = true) →
      validateMessageInput s = false)
    ∧ ((∃ c ∈ s.toList, isMeaningfulChar c = true) →
        utf16Length s ≤ VALIDATION_CONFIG.MAX_MESSAGE_LENGTH →
        validateMessageInput s = true) := by
  constructor
  · intro h
    rcases h with h | h
    · rw [h]; rfl
    · by_cases hne : s = ""
      · rw [hne]; rfl
      · rw [validateMessageInput, if_neg hne]
        have h0 : utf16Length (jsTrim s) = 0 := by
          show utf16Len (jsTrimList s.toList) = 0
          rw [jsTrimList_all_ws h]
          rfl
        simp [h0]
  · rintro ⟨c, hc, hm⟩ hlen
    have hne : ¬ s = "" := by
      intro h
      rw [h] at hc
      cases hc
    have hws : isJsWhitespace c = false := meaningful_not_ws hm
    have htm : c ∈ jsTrimList s.toList := mem_jsTrimList hc hws
    have hpos : 0 < utf16Length (jsTrim s) := utf16Len_pos htm
    rw [validateMessageInput_iff]
    refine ⟨hne, by omega, ?_, by omega, ?_, ?_⟩
    · have : VALIDATION_CONFIG.MIN_MESSAGE_LENGTH = 1 := rfl
      omega
    · intro hall
      rw [isWhitespaceOnlyRegex, List.all_eq_true] at hall
      rw [hall c hc] at hws
      cases hws
    · rw [hasMeaningfulChar, List.any_eq_true]
      exact ⟨c, htm, hm⟩

theorem validateMessageInput_spec_witness :
    validateMessageInput "   " = false ∧ validateMessageInput "Hello" = true :=
  ⟨(validateMessageInput_spec "   ").1 (Or.inr (by decide)),
   (validateMessageInput_spec "Hello").2 ⟨'H', by decide, by decide⟩ (by decide)⟩

/-- If a string is not whitespace-only, its trimmed form is nonempty. -/
theorem trimmed_pos_of_not_wsOnly {s : String}
    (h : isWhitespaceOnlyRegex s = false) : 0 < utf16Length (jsTrim s) := by
  rw [isWhitespaceOnlyRegex] at h
  have : ∃ c ∈ s.toList, ¬ isJsWhitespace c = true := by
    by_contra hall
    push_neg at hall
    rw [List.all_eq_true.mpr (fun c hc => hall c hc)] at h
    cases h
  obtain ⟨c, hc, hcw⟩ := this
  rw [Bool.not_eq_true] at hcw
  exact utf16Len_pos (mem_jsTrimList hc hcw)

/-- C6: `getValidationErrorMessage` returns the first applicable reason in
the precedence order missing → too long → whitespace-only → too short →
no-meaningful-content, and returns `none` exactly when none of these
reasons applies. -/
theorem getValidationErrorMessage_spec (s : String) :
    (s = "" → getValidationErrorMessage s = some "Please enter a message")
    ∧ (¬ s = "" → utf16Length s > VALIDATION_CONFIG.MAX_MESSAGE_LENGTH →
        getValidationErrorMessage s = some "Message cannot exceed 4000 characters")
    ∧ (¬ s = "" → ¬ utf16Length s > VALIDATION_CONFIG.MAX_MESSAGE_LENGTH →
        isWhitespaceOnlyRegex s = true →
        getValidationErrorMessage s = some "Message cannot contain only whitespace")
    ∧ (¬ s = "" → ¬ utf16Length s > VALIDATION_CONFIG.MAX_MESSAGE_LENGTH →
        isWhitespaceOnlyRegex s = false →
        utf16Length (jsTrim s) < VALIDATION_CONFIG.MIN_MESSAGE_LENGTH →
        getValidationErrorMessage s = some "Message must be at least 1 character long")
    ∧ (¬ s = "" → ¬ utf16Length s > VALIDATION_CONFIG.MAX_MESSAGE_LENGTH →
        isWhitespaceOnlyRegex s = false →
        ¬ utf16Length (jsTrim s) < VALIDATION_CONFIG.MIN_MESSAGE_LENGTH →
        hasMeaningfulChar (jsTrim s) = false →
        getValidationErrorMessage s = some "Message must contain meaningful content")
    ∧ (getValidationErrorMessage s = none ↔
        (¬ s = "" ∧ ¬ utf16Length s > VALIDATION_CONFIG.MAX_MESSAGE_LENGTH
          ∧ isWhitespaceOnlyRegex s = false
          ∧ ¬ utf16Length (jsTrim s) < VALIDATION_CONFIG.MIN_MESSAGE_LENGTH
          ∧ hasMeaningfulChar (jsTrim s) = true)) := by
  have hA : VALIDATION_CONFIG.ALLOW_ONLY_WHITESPACE = false := rfl
  have hR : VALIDATION_CONFIG.REQUIRE_MEANINGFUL_CONTENT = true := rfl
  have hMin : VALIDATION_CONFIG.MIN_MESSAGE_LENGTH = 1 := rfl
  refine ⟨?_, ?_, ?_, ?_, ?_, ?_⟩
  · intro h
    rw [h]
    rfl
  · intro h1 h2
    rw [getValidationErrorMessage, if_neg h1, if_pos h2]
    rfl
  · intro h1 h2 h3
    rw [getValidationErrorMessage, if_neg h1, if_neg h2]
    simp [hA, h3]
  · intro h1 h2 h3 h4
    have := trimmed_pos_of_not_wsOnly h3
    omega
  · intro h1 h2 h3 h4 h5
    have hpos := trimmed_pos_of_not_wsOnly h3
    rw [getValidationErrorMessage, if_neg h1, if_neg h2]
    simp only [hA, hR, Bool.not_false, Bool.true_and, h3, if_false]
    rw [if_neg (by omega : ¬ utf16Length (jsTrim s) = 0), if_neg h4]
    simp [h5]
  · constructor
    · intro h
      rw [getValidationErrorMessage] at h
      by_cases h1 : s = ""
      · rw [if_pos h1] at h; cases h
      rw [if_neg h1] at h
      by_cases h2 : utf16Length s > VALIDATION_CONFIG.MAX_MESSAGE_LENGTH
      · rw [if_pos h2] at h; cases h
      rw [if_neg h2] at h
      simp only [hA, hR, Bool.not_false, Bool.true_and] at h
      by_cases h3 : isWhitespaceOnlyRegex s = true
      · rw [if_pos h3] at h; cases h
      rw [if_neg h3] at h
      rw [Bool.not_eq_true] at h3
      by_cases h4 : utf16Length (jsTrim s) = 0
      · rw [if_pos h4] at h; cases h
      rw [if_neg h4] at h
      by_cases h5 : utf16Length (jsTrim s) < VALIDATION_CONFIG.MIN_MESSAGE_LENGTH
      · rw [if_pos h5] at h; cases h
      rw [if_neg h5] at h
      by_cases h6 : hasMeaningfulChar (jsTrim s) = true
      · exact ⟨h1, h2, h3, h5, h6⟩
      · rw [Bool.not_eq_true] at h6
        simp [h6] at h
    · rintro ⟨h1, h2, h3, h4, h5⟩
      rw [getValidationErrorMessage, if_neg h1, if_neg h2]
      simp only [hA, hR, Bool.not_false, Bool.true_and, h3, if_false]
      have hpos := trimmed_pos_of_not_wsOnly h3
      rw [if_neg (by omega : ¬ utf16Length (jsTrim s) = 0), if_neg h4]
      simp [h5]

theorem getValidationErrorMessage_spec_witness :
    getValidationErrorMessage "" = some "Please enter a message"
    ∧ getValidationErrorMessage "ok" = none :=
  ⟨(getValidationErrorMessage_spec "").1 rfl,
   (getValidationErrorMessage_spec "ok").2.2.2.2.2.mpr
     ⟨by decide, by decide, by decide, by decide, by decide⟩⟩

/-! ## Append atomicity on a missing conversation -/

/-- C10: appending a message to a conversation id that does not occur in
the loaded store performs no storage write at all — the world, and with it
the persisted entries of both backends, is returned exactly unchanged —
and reports `success = false` with the warning "Conversation not found". -/
theorem addMessage_unknownId (w : World) (cid : String) (msg : ChatMessage)
    (now : Nat) (h : cid ∉ (getChatStorage w).conversations.map Conversation.id) :
    addMessageToConversation w cid msg now
      = ({ success := false, warning := some "Conversation not found" }, w) := by
  have hidx : (getChatStorage w).conversations.findIdx?
      (fun conv => conv.id == cid) = none := by
    rw [List.findIdx?_eq_none_iff]
    intro c hc
    rw [beq_eq_false_iff_ne]
    intro he
    exact h (he ▸ List.mem_map_of_mem Conversation.id hc)
  rw [addMessageToConversation]
  simp only [hidx]

theorem addMessage_unknownId_witness :
    addMessageToConversation baseWorld "missing"
        { id := "m1", role := "user", content := "hi", timestamp := 0, metadata := none } 0
      = ({ success := false, warning := some "Conversation not found" }, baseWorld) :=
  addMessage_unknownId baseWorld "missing" _ 0 (by decide)

/-! ## Save-path error handling -/

/-- `optimizeStorageForSpace` preserves the conversation referenced by a
truthy `currentConversationId` whenever it exists in the store. -/
theorem optimize_preserves_current (storage : ChatStorage) (cid : String)
    (c : Conversation) (hcur : storage.currentConversationId = some cid)
    (hne : cid ≠ "") (hc : c ∈ storage.conversations) (hid : c.id = cid) :
    ∃ c2 ∈ (optimizeStorageForSpace storage).conversations, c2.id = cid := by
  rw [optimizeStorageForSpace]
  simp only [hcur]
  have hbeq : (cid == "") = false := beq_eq_false_iff_ne.mpr hne
  rw [hbeq]
  simp only [Bool.false_eq_true, if_false]
  set kept := (sortByUpdatedDesc storage.conversations).take 5 with hkept
  by_cases hfound : (kept.find? fun c => c.id == cid).isSome = true
  · obtain ⟨c2, hc2⟩ := Option.isSome_iff_exists.mp hfound
    refine ⟨c2, ?_, by simpa using List.find?_some hc2⟩
    simp only [hfound, if_true]
    exact List.mem_of_find?_eq_some hc2
  · have hex : (storage.conversations.find? fun c => c.id == cid).isSome = true :=
      List.find?_isSome.mpr ⟨c, hc, beq_iff_eq.mpr hid⟩
    obtain ⟨c3, hc3⟩ := Option.isSome_iff_exists.mp hex
    rw [Bool.not_eq_true] at hfound
    refine ⟨c3, ?_, by simpa using List.find?_some hc3⟩
    simp only [hfound, Bool.false_eq_true, if_false, hc3]
    exact List.mem_append_right _ (List.mem_singleton.mpr rfl)

/-- C3: when the primary-backend write fails with a capacity-class (quota)
error, `saveChatStorage` prunes the store with `optimizeStorageForSpace`
(which always preserves the conversation referenced by
`currentConversationId`) and retries the primary backend with the pruned
data; if that write also fails it writes the pruned store to the secondary
backend and returns success with a non-empty warning; and if the secondary
backend also fails it returns `success = false`. -/
theorem saveChatStorage_quota_spec (w : World) (storage : ChatStorage)
    (hspace : w.availableSpace = none)
    (hq : w.localWriteResult (encodeStorage w.isoOf storage) = some .quotaExceeded) :
    (w.localWriteResult (encodeStorage w.isoOf (optimizeStorageForSpace storage)) = none →
      (saveChatStorage w storage).1.success = true
      ∧ (saveChatStorage w storage).2.localData
          = some (encodeStorage w.isoOf (optimizeStorageForSpace storage)))
    ∧ (∀ e, w.localWriteResult
          (encodeStorage w.isoOf (optimizeStorageForSpace storage)) = some e →
        (w.sessionWriteFails (encodeStorage w.isoOf (optimizeStorageForSpace storage)) = false →
          (saveChatStorage w storage).1.success = true
          ∧ ∃ wmsg, (saveChatStorage w storage).1.error = some wmsg ∧ wmsg ≠ ""
            ∧ (saveChatStorage w storage).2.sessionData
                = some (encodeStorage w.isoOf (optimizeStorageForSpace storage)))
        ∧ (w.sessionWriteFails (encodeStorage w.isoOf (optimizeStorageForSpace storage)) = true →
          (saveChatStorage w storage).1.success = false))
    ∧ (∀ cid c, storage.currentConversationId = some cid → cid ≠ "" →
        c ∈ storage.conversations → c.id = cid →
        ∃ c2 ∈ (optimizeStorageForSpace storage).conversations, c2.id = cid) := by
  have hmain : saveChatStorage w storage
      = saveChatStorageMain w storage (encodeStorage w.isoOf storage) := by
    rw [saveChatStorage, hspace]
  refine ⟨?_, ?_, ?_⟩
  · intro hopt
    simp [hmain, saveChatStorageMain, setLocal, hq, hopt]
  · intro e hopt
    constructor
    · intro hsess
      simp only [hmain, saveChatStorageMain, setLocal, hq, hopt,
        fallbackToSessionStorage, hsess, Bool.false_eq_true, if_false]
      exact ⟨by trivial, "Using session storage (data will not persist after browser close)",
        by trivial, by decide, by trivial⟩
    · intro hsess
      simp [hmain, saveChatStorageMain, setLocal, hq, hopt,
        fallbackToSessionStorage, hsess]
  · intro cid c hcur hne hc hid
    exact optimize_preserves_current storage cid c hcur hne hc hid

theorem saveChatStorage_quota_spec_witness :
    ((saveChatStorage quotaWorld twoConvStore).1.success = true
      ∧ ∃ wmsg, (saveChatStorage quotaWorld twoConvStore).1.error = some wmsg
        ∧ wmsg ≠ ""
        ∧ (saveChatStorage quotaWorld twoConvStore).2.sessionData
            = some (encodeStorage quotaWorld.isoOf
                (optimizeStorageForSpace twoConvStore))) :=
  ((saveChatStorage_quota_spec quotaWorld twoConvStore rfl rfl).2.1
    .quotaExceeded rfl).1 rfl

/-! ## Sorting and index lemmas for the store operations -/

theorem insertByUpdatedDesc_perm (c : Conversation) :
    ∀ l : List Conversation, (insertByUpdatedDesc c l).Perm (c :: l) := by
  intro l
  induction l with
  | nil => exact List.Perm.refl _
  | cons d ds ih =>
    rw [insertByUpdatedDesc]
    split
    · exact List.Perm.refl _
    · exact (List.Perm.cons d ih).trans (List.Perm.swap c d ds)

theorem sortByUpdatedDesc_perm :
    ∀ l : List Conversation, (sortByUpdatedDesc l).Perm l := by
  intro l
  induction l with
  | nil => exact List.Perm.refl _
  | cons c cs ih =>
    rw [sortByUpdatedDesc]
    exact (insertByUpdatedDesc_perm c _).trans (List.Perm.cons c ih)

theorem sortByUpdatedDesc_head_max :
    ∀ (l : List Conversation) (x : Conversation) (xs : List Conversation),
      sortByUpdatedDesc l = x :: xs → ∀ c ∈ l, c.updatedAt ≤ x.updatedAt := by
  intro l
  induction l with
  | nil => intro x xs h; cases h
  | cons a as ih =>
    intro x xs h c hc
    rw [sortByUpdatedDesc] at h
    cases hs : sortByUpdatedDesc as with
    | nil =>
      have hp := sortByUpdatedDesc_perm as
      rw [hs] at hp
      have has : as = [] := List.perm_nil.mp hp.symm
      rw [hs, insertByUpdatedDesc] at h
      cases h
      rcases List.mem_cons.mp hc with hca | hca
      · subst hca; exact Nat.le_refl _
      · rw [has] at hca; cases hca
    | cons y ys =>
      rw [hs, insertByUpdatedDesc] at h
      have hmax := ih y ys hs
      split at h
      · rename_i hlt
        cases h
        rcases List.mem_cons.mp hc with hca | hca
        · subst hca; exact Nat.le_refl _
        · have := hmax c hca
          omega
      · rename_i hge
        cases h
        rcases List.mem_cons.mp hc with hca | hca
        · subst hca; omega
        · exact hmax c hca

theorem findIdx?_some_spec {α : Type} {p : α → Bool} :
    ∀ (l : List α) (i : Nat), l.findIdx? p = some i →
      ∃ h : i < l.length, p (l.get ⟨i, h⟩) = true := by
  intro l
  induction l with
  | nil => intro i h; cases h
  | cons x xs ih =>
    intro i h
    rw [List.findIdx?_cons] at h
    by_cases hp : p x = true
    · rw [if_pos hp] at h
      cases h
      exact ⟨Nat.succ_pos _, hp⟩
    · rw [if_neg hp, List.findIdx?_succ] at h
      obtain ⟨j, hj, hji⟩ := Option.map_eq_some'.mp h
      subst hji
      obtain ⟨hlt, hpe⟩ := ih j hj
      refine ⟨by simpa using Nat.succ_lt_succ hlt, ?_⟩
      simpa using hpe

theorem mem_eraseIdx_findIdx {α : Type} {p : α → Bool} {l : List α} {i : Nat}
    (hidx : l.findIdx? p = some i) {x : α} (hx : x ∈ l) (hpx : p x = false) :
    x ∈ l.eraseIdx i := by
  obtain ⟨hlt, hpi⟩ := findIdx?_some_spec l i hidx
  rw [List.mem_eraseIdx_iff_getElem]
  obtain ⟨k, hk, hkx⟩ := List.mem_iff_getElem.mp hx
  refine ⟨k, hk, ?_, hkx⟩
  intro hki
  subst hki
  have hpx2 : p x = true := by
    rw [← hkx]
    exact hpi
  rw [hpx2] at hpx
  cases hpx

theorem mem_eraseIdx_id_ne {l : List Conversation} {cid : String} {i : Nat}
    (hnodup : (l.map Conversation.id).Nodup)
    (hidx : l.findIdx? (fun c => c.id == cid) = some i) :
    ∀ c ∈ l.eraseIdx i, c.id ≠ cid := by
  intro c hc hcid
  obtain ⟨hlt, hpi⟩ := findIdx?_some_spec l i hidx
  rw [List.mem_eraseIdx_iff_getElem] at hc
  obtain ⟨k, hk, hki, hkc⟩ := hc
  have hpi2 : (l.get ⟨i, hlt⟩).id = cid := by simpa using hpi
  have hmapk : k < (l.map Conversation.id).length := by simpa using hk
  have hmapi : i < (l.map Conversation.id).length := by simpa using hlt
  have heq : (l.map Conversation.id).get ⟨k, hmapk⟩
      = (l.map Conversation.id).get ⟨i, hmapi⟩ := by
    rw [List.get_map, List.get_map]
    rw [show l.get ⟨k, hk⟩ = c from hkc, hcid]
    rw [show l.get ⟨(⟨i, hmapi⟩ : Fin (l.map Conversation.id).length).val, hlt⟩
        = l.get ⟨i, hlt⟩ from rfl, hpi2]
  have : (⟨k, hmapk⟩ : Fin (l.map Conversation.id).length) = ⟨i, hmapi⟩ :=
    (hnodup.get_inj_iff).mp heq
  exact hki (congrArg Fin.val this)

/-! ## Case equations for the store operations -/

theorem findCurrentConversation_some {storage : ChatStorage} {e : Conversation}
    (h : findCurrentConversation storage = some e) :
    ∃ cid, storage.currentConversationId = some cid
      ∧ e ∈ storage.conversations ∧ e.id = cid := by
  unfold findCurrentConversation at h
  cases hc : storage.currentConversationId with
  | none => rw [hc] at h; cases h
  | some cid =>
    rw [hc] at h
    simp only at h
    split at h
    · cases h
    · exact ⟨cid, rfl, List.mem_of_find?_eq_some h,
        by simpa using List.find?_some h⟩

theorem getCurrentConversationCore_eq_found {storage : ChatStorage}
    {existing : Conversation} (newId : String) (now : Nat)
    (hfind : findCurrentConversation storage = some existing) :
    getCurrentConversationCore storage newId now = (existing, storage) := by
  unfold getCurrentConversationCore
  rw [hfind]

theorem getCurrentConversationCore_eq_missing {storage : ChatStorage}
    (newId : String) (now : Nat)
    (hfind : findCurrentConversation storage = none) :
    getCurrentConversationCore storage newId now
      = (createConversation newId now,
         { storage with
            conversations := storage.conversations ++ [createConversation newId now]
            currentConversationId := some (createConversation newId now).id }) := by
  unfold getCurrentConversationCore
  rw [hfind]

theorem switchToConversationCore_eq_missing {storage : ChatStorage}
    {cid : String}
    (hfind : storage.conversations.find? (fun conv => conv.id == cid) = none) :
    switchToConversationCore storage cid = (none, storage) := by
  unfold switchToConversationCore
  rw [hfind]

theorem switchToConversationCore_eq_found {storage : ChatStorage}
    {cid : String} {conversation : Conversation}
    (hfind : storage.conversations.find? (fun conv => conv.id == cid)
      = some conversation) :
    switchToConversationCore storage cid
      = (some conversation,
         { storage with currentConversationId := some cid }) := by
  unfold switchToConversationCore
  rw [hfind]

theorem deleteConversationCore_eq_missing {storage : ChatStorage}
    {cid : String} (freshId : String) (now : Nat)
    (hidx : storage.conversations.findIdx? (fun conv => conv.id == cid) = none) :
    deleteConversationCore storage cid freshId now = none := by
  unfold deleteConversationCore
  rw [hidx]

theorem deleteConversationCore_eq_not_current {storage : ChatStorage}
    {cid : String} {i : Nat} (freshId : String) (now : Nat)
    (hidx : storage.conversations.findIdx? (fun conv => conv.id == cid) = some i)
    (hcur : (storage.currentConversationId == some cid) = false) :
    deleteConversationCore storage cid freshId now
      = some ({ storage with
                  conversations := storage.conversations.eraseIdx i }, none) := by
  unfold deleteConversationCore
  rw [hidx]
  simp [hcur]

theorem deleteConversationCore_eq_current_cons {storage : ChatStorage}
    {cid : String} {i : Nat} {first : Conversation} {rest : List Conversation}
    (freshId : String) (now : Nat)
    (hidx : storage.conversations.findIdx? (fun conv => conv.id == cid) = some i)
    (hcur : (storage.currentConversationId == some cid) = true)
    (hsort : sortByUpdatedDesc (storage.conversations.eraseIdx i) = first :: rest) :
    deleteConversationCore storage cid freshId now
      = some ({ storage with
                  conversations := first :: rest
                  currentConversationId := some first.id }, some first) := by
  unfold deleteConversationCore
  rw [hidx]
  simp [hcur, hsort]

theorem deleteConversationCore_eq_current_nil {storage : ChatStorage}
    {cid : String} {i : Nat} (freshId : String) (now : Nat)
    (hidx : storage.conversations.findIdx? (fun conv => conv.id == cid) = some i)
    (hcur : (storage.currentConversationId == some cid) = true)
    (hsort : sortByUpdatedDesc (storage.conversations.eraseIdx i) = []) :
    deleteConversationCore storage cid freshId now
      = some ({ storage with
                  conversations := [createConversation freshId now]
                  currentConversationId := some (createConversation freshId now).id },
              some (createConversation freshId now)) := by
  unfold deleteConversationCore
  rw [hidx]
  simp [hcur, hsort]

/-! ## Store invariant over the operations -/

/-- C9: `getCurrentConversationCore` and `createNewConversationCore`
establish the store invariant unconditionally, and
`switchToConversationCore` and `deleteConversationCore` preserve it: after
each operation a non-null `currentConversationId` references a conversation
present in the list.  Moreover `getCurrentConversation` repairs a dangling
`currentConversationId` by creating a fresh empty conversation, setting it
current and returning it. -/
theorem storeInvariant_ops (storage : ChatStorage) (newId : String) (now : Nat)
    (hinv : storeInvariant storage) :
    storeInvariant (getCurrentConversationCore storage newId now).2
    ∧ storeInvariant (createNewConversationCore storage newId now).2
    ∧ (∀ cid, storeInvariant (switchToConversationCore storage cid).2)
    ∧ (∀ cid freshId fnow st' nc,
        deleteConversationCore storage cid freshId fnow = some (st', nc) →
        storeInvariant st')
    ∧ (∀ cid, storage.currentConversationId = some cid →
        cid ∉ storage.conversations.map Conversation.id →
        (getCurrentConversationCore storage newId now).1.messages = []
        ∧ (getCurrentConversationCore storage newId now).2.currentConversationId
            = some (getCurrentConversationCore storage newId now).1.id
        ∧ (getCurrentConversationCore storage newId now).1
            ∈ (getCurrentConversationCore storage newId now).2.conversations) := by
  refine ⟨?_, ?_, ?_, ?_, ?_⟩
  · cases hfind : findCurrentConversation storage with
    | some existing =>
      rw [getCurrentConversationCore_eq_found newId now hfind]
      intro cid0 hcid
      obtain ⟨cid1, hcur, hmem, hid⟩ := findCurrentConversation_some hfind
      have heq : cid1 = cid0 := by
        have hcid2 : storage.currentConversationId = some cid0 := hcid
        rw [hcur] at hcid2
        exact Option.some.inj hcid2
      rw [← heq, ← hid]
      exact List.mem_map_of_mem Conversation.id hmem
    | none =>
      rw [getCurrentConversationCore_eq_missing newId now hfind]
      intro cid0 hcid
      have hcid2 : some (createConversation newId now).id = some cid0 := hcid
      rw [← Option.some.inj hcid2, List.map_append]
      exact List.mem_append_right _ (by simp)
  · intro cid0 hcid
    have hcid2 : some (createConversation newId now).id = some cid0 := hcid
    have hconvs : (createNewConversationCore storage newId now).2.conversations
        = storage.conversations ++ [createConversation newId now] := rfl
    rw [hconvs, ← Option.some.inj hcid2, List.map_append]
    exact List.mem_append_right _ (by simp)
  · intro cid
    cases hfind : storage.conversations.find? (fun conv => conv.id == cid) with
    | none =>
      rw [switchToConversationCore_eq_missing hfind]
      exact hinv
    | some conversation =>
      rw [switchToConversationCore_eq_found hfind]
      intro cid0 hcid
      have hcid2 : some cid = some cid0 := hcid
      have hpred : conversation.id = cid := by simpa using List.find?_some hfind
      rw [← Option.some.inj hcid2, ← hpred]
      exact List.mem_map_of_mem Conversation.id (List.mem_of_find?_eq_some hfind)
  · intro cid freshId fnow st' nc hdel
    cases hidx : storage.conversations.findIdx? (fun conv => conv.id == cid) with
    | none =>
      rw [deleteConversationCore_eq_missing freshId fnow hidx] at hdel
      cases hdel
    | some i =>
      by_cases hcur : (storage.currentConversationId == some cid) = true
      · cases hsort : sortByUpdatedDesc (storage.conversations.eraseIdx i) with
        | nil =>
          rw [deleteConversationCore_eq_current_nil freshId fnow hidx hcur hsort] at hdel
          obtain ⟨h1, _⟩ := Prod.mk.injEq .. ▸ Option.some.inj hdel
          subst h1
          intro cid0 hcid
          have hcid2 : some (createConversation freshId fnow).id = some cid0 := hcid
          rw [← Option.some.inj hcid2]
          simp
        | cons first rest =>
          rw [deleteConversationCore_eq_current_cons freshId fnow hidx hcur hsort] at hdel
          obtain ⟨h1, _⟩ := Prod.mk.injEq .. ▸ Option.some.inj hdel
          subst h1
          intro cid0 hcid
          have hcid2 : some first.id = some cid0 := hcid
          rw [← Option.some.inj hcid2]
          simp
      · rw [Bool.not_eq_true] at hcur
        rw [deleteConversationCore_eq_not_current freshId fnow hidx hcur] at hdel
        obtain ⟨h1, _⟩ := Prod.mk.injEq .. ▸ Option.some.inj hdel
        subst h1
        intro cid0 hcid
        have hcid2 : storage.currentConversationId = some cid0 := hcid
        have hne : cid0 ≠ cid := by
          intro h
          rw [beq_eq_false_iff_ne] at hcur
          exact hcur (by rw [hcid2, h])
        obtain ⟨c0, hc0, hc0id⟩ := List.mem_map.mp (hinv cid0 hcid2)
        have hc0p : (fun conv => conv.id == cid) c0 = false := by
          simp only [beq_eq_false_iff_ne]
          rw [hc0id]
          exact hne
        exact List.mem_map.mpr
          ⟨c0, mem_eraseIdx_findIdx hidx hc0 hc0p, hc0id⟩
  · intro cid hcid hdangling
    have hfind : findCurrentConversation storage = none := by
      unfold findCurrentConversation
      rw [hcid]
      simp only
      split
      · rfl
      · rw [List.find?_eq_none]
        intro c hc hbeq
        exact hdangling
          (beq_iff_eq.mp hbeq ▸ List.mem_map_of_mem Conversation.id hc)
    rw [getCurrentConversationCore_eq_missing newId now hfind]
    exact ⟨rfl, rfl, List.mem_append_right _ (List.mem_singleton.mpr rfl)⟩

theorem storeInvariant_ops_witness :
    storeInvariant (getCurrentConversationCore getDefaultChatStorage "n1" 5).2 :=
  (storeInvariant_ops getDefaultChatStorage "n1" 5 (fun _ h => nomatch h)).1

/-! ## Deleting a conversation -/

/-- C8: for a store containing conversation id `cid` (found at index `i`,
ids assumed unique as the data model requires, and the fresh id distinct
from the deleted one): `deleteConversationCore` removes that conversation;
if it was not current, `currentConversationId` and the order of the
remaining conversations are unchanged; if it was current and conversations
remain, the store holds a permutation of the remainder and the new current
conversation is a most-recently-updated one of the remainder; if none
remain, a fresh empty conversation is created and set as current. -/
theorem deleteConversation_spec (storage : ChatStorage) (cid freshId : String)
    (now : Nat) (i : Nat)
    (hnodup : (storage.conversations.map Conversation.id).Nodup)
    (hfresh : freshId ≠ cid)
    (hidx : storage.conversations.findIdx? (fun conv => conv.id == cid) = some i) :
    ∃ st' nc, deleteConversationCore storage cid freshId now = some (st', nc)
      ∧ (∀ c ∈ st'.conversations, c.id ≠ cid)
      ∧ (storage.currentConversationId ≠ some cid →
          st'.currentConversationId = storage.currentConversationId
          ∧ st'.conversations = storage.conversations.eraseIdx i)
      ∧ (storage.currentConversationId = some cid →
          storage.conversations.eraseIdx i ≠ [] →
          st'.conversations.Perm (storage.conversations.eraseIdx i)
          ∧ ∃ c ∈ storage.conversations.eraseIdx i,
              st'.currentConversationId = some c.id
              ∧ ∀ d ∈ storage.conversations.eraseIdx i,
                  d.updatedAt ≤ c.updatedAt)
      ∧ (storage.currentConversationId = some cid →
          storage.conversations.eraseIdx i = [] →
          ∃ fc, st'.conversations = [fc] ∧ fc.messages = []
            ∧ st'.currentConversationId = some fc.id) := by
  by_cases hcur : (storage.currentConversationId == some cid) = true
  · have hcureq : storage.currentConversationId = some cid := by
      exact beq_iff_eq.mp hcur
    cases hsort : sortByUpdatedDesc (storage.conversations.eraseIdx i) with
    | nil =>
      have hp := sortByUpdatedDesc_perm (storage.conversations.eraseIdx i)
      rw [hsort] at hp
      have hrem : storage.conversations.eraseIdx i = [] :=
        List.perm_nil.mp hp.symm
      refine ⟨_, _, deleteConversationCore_eq_current_nil freshId now hidx hcur hsort,
        ?_, ?_, ?_, ?_⟩
      · intro c hc
        have : c = createConversation freshId now := by
          simpa using hc
        rw [this]
        exact hfresh
      · intro h; exact absurd hcureq h
      · intro _ h; exact absurd hrem h
      · intro _ _
        exact ⟨createConversation freshId now, rfl, rfl, rfl⟩
    | cons first rest =>
      have hperm : (first :: rest).Perm (storage.conversations.eraseIdx i) := by
        have hp := sortByUpdatedDesc_perm (storage.conversations.eraseIdx i)
        rw [hsort] at hp
        exact hp
      refine ⟨_, _, deleteConversationCore_eq_current_cons freshId now hidx hcur hsort,
        ?_, ?_, ?_, ?_⟩
      · intro c hc
        exact mem_eraseIdx_id_ne hnodup hidx c (hperm.mem_iff.mp hc)
      · intro h; exact absurd hcureq h
      · intro _ _
        refine ⟨hperm, first,
          hperm.mem_iff.mp (List.mem_cons_self first rest), rfl, ?_⟩
        intro d hd
        exact sortByUpdatedDesc_head_max _ first rest hsort d hd
      · intro _ hrem
        rw [hrem] at hsort
        cases hsort
  · rw [Bool.not_eq_true] at hcur
    refine ⟨_, _, deleteConversationCore_eq_not_current freshId now hidx hcur, ?_, ?_, ?_, ?_⟩
    · intro c hc
      exact mem_eraseIdx_id_ne hnodup hidx c hc
    · intro _; exact ⟨rfl, rfl⟩
    · intro h
      rw [beq_eq_false_iff_ne] at hcur
      exact absurd h hcur
    · intro h
      rw [beq_eq_false_iff_ne] at hcur
      exact absurd h hcur

theorem deleteConversation_spec_witness :
    ∃ st' nc, deleteConversationCore twoConvStore "a" "f" 99 = some (st', nc)
      ∧ (∀ c ∈ st'.conversations, c.id ≠ "a")
      ∧ (twoConvStore.currentConversationId ≠ some "a" →
          st'.currentConversationId = twoConvStore.currentConversationId
          ∧ st'.conversations = twoConvStore.conversations.eraseIdx 0)
      ∧ (twoConvStore.currentConversationId = some "a" →
          twoConvStore.conversations.eraseIdx 0 ≠ [] →
          st'.conversations.Perm (twoConvStore.conversations.eraseIdx 0)
          ∧ ∃ c ∈ twoConvStore.conversations.eraseIdx 0,
              st'.currentConversationId = some c.id
              ∧ ∀ d ∈ twoConvStore.conversations.eraseIdx 0,
                  d.updatedAt ≤ c.updatedAt)
      ∧ (twoConvStore.currentConversationId = some "a" →
          twoConvStore.conversations.eraseIdx 0 = [] →
          ∃ fc, st'.conversations = [fc] ∧ fc.messages = []
            ∧ st'.currentConversationId = some fc.id) :=
  deleteConversation_spec twoConvStore "a" "f" 99 0 (by decide) (by decide) (by decide)

/-! ## Serialization round-trip -/

theorem decode_encodeMetadata (md : ChatMessageMetadata) :
    (match encodeMetadata md with
     | Json.obj mf => some (decodeMetadata mf)
     | _ => none) = some md := by
  cases md with
  | mk tokens model error =>
    rcases tokens with _ | t <;> rcases model with _ | m <;> rcases error with _ | e <;>
      simp [encodeMetadata, decodeMetadata, Json.getField]

theorem decodeMessage_encode {parseDate : String → Nat} {iso : Nat → String}
    (hpd : ∀ t, parseDate (iso t) = t) (m : ChatMessage) :
    decodeMessage parseDate (encodeMessage iso m) = some m := by
  cases m with
  | mk i r c ts md =>
    cases md with
    | none => simp [encodeMessage, decodeMessage, Json.getField, hpd]
    | some md0 =>
      have hmd := decode_encodeMetadata md0
      cases md0 with
      | mk tokens model error =>
        rcases tokens with _ | t <;> rcases model with _ | m0 <;>
          rcases error with _ | e <;>
          simp_all [encodeMessage, decodeMessage, encodeMetadata,
            decodeMetadata, Json.getField, hpd]

theorem decodeMessages_encode {parseDate : String → Nat} {iso : Nat → String}
    (hpd : ∀ t, parseDate (iso t) = t) :
    ∀ ms : List ChatMessage,
      (ms.map (encodeMessage iso)).mapM (decodeMessage parseDate) = some ms := by
  intro ms
  induction ms with
  | nil => rfl
  | cons m rest ih =>
    rw [List.map_cons, List.mapM_cons, decodeMessage_encode hpd, ih]
    rfl

theorem decodeConversation_encode {parseDate : String → Nat} {iso : Nat → String}
    (hpd : ∀ t, parseDate (iso t) = t) (c : Conversation) :
    decodeConversation parseDate (encodeConversation iso c) = some c := by
  cases c with
  | mk i ms ca ua title =>
    have hms : List.mapM.loop (decodeMessage parseDate)
        (List.map (encodeMessage iso) ms) [] = some ms :=
      decodeMessages_encode hpd ms
    rcases title with _ | t <;>
      simp [encodeConversation, decodeConversation, Json.getField, hpd, hms]

theorem decodeConversations_encode {parseDate : String → Nat} {iso : Nat → String}
    (hpd : ∀ t, parseDate (iso t) = t) :
    ∀ cs : List Conversation,
      (cs.map (encodeConversation iso)).mapM (decodeConversation parseDate)
        = some cs := by
  intro cs
  induction cs with
  | nil => rfl
  | cons c rest ih =>
    rw [List.map_cons, List.mapM_cons, decodeConversation_encode hpd, ih]
    rfl

theorem decodeStorage_encode {parseDate : String → Nat} {iso : Nat → String}
    (hpd : ∀ t, parseDate (iso t) = t) (s : ChatStorage) :
    decodeStorage parseDate (encodeStorage iso s) = some s := by
  cases s with
  | mk convs current settings =>
    cases settings with
    | mk th fs =>
      have hcs : List.mapM.loop (decodeConversation parseDate)
          (List.map (encodeConversation iso) convs) [] = some convs :=
        decodeConversations_encode hpd convs
      rcases current with _ | cid <;>
        simp [encodeStorage, decodeStorage, Json.getField, hcs]

/-- C4: saving a `ChatStorage` through the primary backend and loading it
back reproduces an equal structure — conversation ids, current-conversation
pointer, message ids, contents and order, and timestamps to millisecond
precision after the ISO round-trip (the `Date` codec hypothesis `hcodec`
is the platform guarantee `new Date(d.toISOString()).getTime() =
d.getTime()`). -/
theorem storage_roundtrip (w : World) (storage : ChatStorage)
    (hcodec : ∀ t, w.parseDate (w.isoOf t) = t)
    (hspace : w.availableSpace = none)
    (hwrite : w.localWriteResult (encodeStorage w.isoOf storage) = none)
    (hread : w.localReadFails = false) :
    (getChatStorageWithFallback (saveChatStorage w storage).2).storage = storage
    ∧ (getChatStorageWithFallback (saveChatStorage w storage).2).source
        = "localStorage"
    ∧ (saveChatStorage w storage).1.success = true := by
  have hsave : saveChatStorage w storage
      = ({ success := true, error := none },
         { w with localData := some (encodeStorage w.isoOf storage) }) := by
    conv_lhs => rw [saveChatStorage, hspace]
    simp [saveChatStorageMain, setLocal, hwrite]
  rw [hsave]
  simp [getChatStorageWithFallback, hread, decodeStorage_encode hcodec storage]

theorem storage_roundtrip_witness :
    (getChatStorageWithFallback (saveChatStorage baseWorld oneConvStore).2).storage
        = oneConvStore
    ∧ (getChatStorageWithFallback (saveChatStorage baseWorld oneConvStore).2).source
        = "localStorage"
    ∧ (saveChatStorage baseWorld oneConvStore).1.success = true :=
  storage_roundtrip baseWorld oneConvStore
    (fun t => by simp [baseWorld, unaryParse, unaryIso]) rfl rfl rfl

end LiffBot
